import Mathlib

/-!
Shallow embedding of the IndiaAI-IDP-Platform client core
(`src/src/pages/ResultsPage.tsx`, `src/src/components/DocumentViewer.tsx`,
the review page, and the API types in `src/src/lib/api.ts`), together
with theorems settling the spec claims about it.

JavaScript numbers are modelled as rationals (the computations involved
are exact divisions by 1000 and arithmetic means, so ℚ is faithful for
every input the claims range over); JS `undefined`-able fields are
`Option`; the JSON string payload parser (`JSON.parse`) is a runtime
primitive and is passed as an explicit function argument where it is
used.
-/

namespace IDP

/-- Job lifecycle status, from `src/src/lib/api.ts` (`Job.status`). -/
inductive JobStatus where
  | queued
  | processing
  | ocr_complete
  | completed
  | failed
deriving DecidableEq, Repr

/-- Job snapshot, from `src/src/lib/api.ts` (`interface Job`); only the
fields the modelled code reads are carried. -/
structure Job where
  id : String
  filename : String
  file_key : String
  status : JobStatus
  confidence_score : Option ℚ
  detected_language : Option String
  completed_at : Option String
deriving DecidableEq, Repr

/-- Bounding box in the normalized 0–1000 coordinate space, from
`src/src/lib/api.ts` (`interface BoundingBox`). -/
structure BoundingBox where
  x : ℚ
  y : ℚ
  width : ℚ
  height : ℚ
deriving DecidableEq, Repr

/-- One detected text region, from `src/src/lib/api.ts`
(`interface TextBlock`). -/
structure TextBlock where
  text : String
  confidence : ℚ
  bbox : BoundingBox
deriving DecidableEq, Repr

/-- Decoded structured-detection payload, from `src/src/lib/api.ts`
(`interface RawOCRData`).  The `blocks` field is `Option` because the
consumer guards it with `rawData.blocks || []`: a parsed object may lack
the field. -/
structure RawOCRData where
  blocks : Option (List TextBlock)
  language : Option String
  full_text : String
deriving DecidableEq, Repr

/-- One page's extraction output, from `src/src/lib/api.ts`
(`interface OCRResult`). -/
structure OCRResult where
  id : Nat
  page_number : Nat
  full_text : String
  confidence : Option ℚ
  processing_time : Option ℚ
  raw_data : Option String
deriving DecidableEq, Repr

/-- Response of `GET /jobs/{id}/results`, from `src/src/lib/api.ts`
(`interface JobResultsResponse`). -/
structure JobResultsResponse where
  job : Job
  ocr_results : List OCRResult
deriving DecidableEq, Repr

/-! ## DocumentViewer: overlay rendering and hit-testing
(`src/src/components/DocumentViewer.tsx`) -/

/-- A pixel-space rectangle as handed to `ctx.strokeRect`. -/
structure Rect where
  x : ℚ
  y : ℚ
  width : ℚ
  height : ℚ
deriving DecidableEq, Repr

/-- Pixel rectangle of one block as computed by the draw effect
(`DocumentViewer.tsx` lines 62–68): `scaleX = canvas.width / 1000`,
`scaleY = canvas.height / 1000`, rectangle
`(bbox.x * scaleX, bbox.y * scaleY, bbox.width * scaleX, bbox.height * scaleY)`;
the scale factors are recomputed from the current canvas size inside
the per-draw loop, so they are a function of the surface size passed in
here. -/
def renderRect (cw ch : ℚ) (b : TextBlock) : Rect :=
  let scaleX := cw / 1000
  let scaleY := ch / 1000
  { x := b.bbox.x * scaleX
    y := b.bbox.y * scaleY
    width := b.bbox.width * scaleX
    height := b.bbox.height * scaleY }

/-- The rectangles drawn by one run of the draw effect
(`textBlocks.forEach` at `DocumentViewer.tsx` line 57). -/
def drawnRects (cw ch : ℚ) (blocks : List TextBlock) : List Rect :=
  blocks.map (renderRect cw ch)

/-- Containment test used by both `handleCanvasClick` (line 111) and
`handleCanvasHover` (line 136):
`x >= bx && x <= bx + bw && y >= by && y <= by + bh` on the block's
pixel rectangle. -/
def containsPoint (cw ch px py : ℚ) (b : TextBlock) : Bool :=
  let scaleX := cw / 1000
  let scaleY := ch / 1000
  let bx := b.bbox.x * scaleX
  let bly := b.bbox.y * scaleY
  let bw := b.bbox.width * scaleX
  let bh := b.bbox.height * scaleY
  decide (bx ≤ px) && decide (px ≤ bx + bw) && decide (bly ≤ py) && decide (py ≤ bly + bh)

/-- `handleCanvasClick` (`DocumentViewer.tsx` lines 93–117): the block
passed to `onBlockClick`, or `none` when no block contains the point
(then `if (clickedBlock && onBlockClick)` fails and the click is a
no-op).  `Array.prototype.find` returns the first element in list order
satisfying the predicate. -/
def handleCanvasClick (blocks : List TextBlock) (cw ch px py : ℚ) : Option TextBlock :=
  blocks.find? (containsPoint cw ch px py)

/-- `handleCanvasHover` (`DocumentViewer.tsx` lines 119–140):
`findIndex` over the same containment test;
`setHoveredBlock(hoveredIndex >= 0 ? hoveredIndex : null)`. -/
def handleCanvasHover (blocks : List TextBlock) (cw ch px py : ℚ) : Option Nat :=
  blocks.findIdx? (containsPoint cw ch px py)

/-! ## ResultsPage: aggregation, export content, payload decoding
(`src/src/pages/ResultsPage.tsx`) -/

/-- JavaScript `Array.prototype.join(sep)`: elements concatenated with
`sep` between consecutive elements. -/
def joinSep (sep : String) : List String → String
  | [] => ""
  | [x] => x
  | x :: y :: xs => x ++ sep ++ joinSep sep (y :: xs)

/-- The transcript shown on screen (`ResultsPage.tsx` line 212):
`ocr_results.map(r => r.full_text).join('\n\n')`. -/
def fullTextOf (rs : List OCRResult) : String :=
  joinSep "\n\n" (rs.map (fun r => r.full_text))

/-- Content of the plain-text export (`downloadAsText`,
`ResultsPage.tsx` line 88): the same expression
`results.ocr_results.map(r => r.full_text).join('\n\n')`. -/
def downloadAsTextContent (results : JobResultsResponse) : String :=
  fullTextOf results.ocr_results

/-- JavaScript `r.confidence || 0`: `undefined` (and `0`, which is
falsy and maps to the same value) becomes `0`. -/
def confOrZero (r : OCRResult) : ℚ :=
  r.confidence.getD 0

/-- Displayed mean confidence (`avgConfidence`, `ResultsPage.tsx`
lines 213–215):
`ocr_results.length > 0 ? (ocr_results.reduce((acc, r) => acc + (r.confidence || 0), 0) / ocr_results.length) * 100 : 0`. -/
def avgConfidence (rs : List OCRResult) : ℚ :=
  if 0 < rs.length then
    (rs.foldl (fun acc r => acc + confOrZero r) 0) / (rs.length : ℚ) * 100
  else 0

/-- `average_confidence` written by the JSON export (`downloadAsJSON`,
`ResultsPage.tsx` lines 120–122): the same sum-with-zero-default over
the total page count, without the `* 100`. -/
def exportAverageConfidence (rs : List OCRResult) : ℚ :=
  if 0 < rs.length then
    (rs.foldl (fun acc r => acc + confOrZero r) 0) / (rs.length : ℚ)
  else 0

/-- Modelled from the spec (§4.2): the mean confidence over exactly the
pages whose confidence is defined, pages without one excluded from
numerator and denominator.  This is the claim side of the refinement
comparison for the confidence average; the code side is
`avgConfidence` / `exportAverageConfidence` above. -/
def specMeanDefinedConfidence (rs : List OCRResult) : ℚ :=
  let defined := rs.filterMap (fun r => r.confidence)
  defined.sum / (defined.length : ℚ)

/-- State of the `ResultsPage` view that the `raw_data` parse effect
can touch: the decoded overlay blocks and the page's error banner. -/
structure ResultsViewState where
  textBlocks : List TextBlock
  error : Option String
deriving DecidableEq, Repr

/-- The `raw_data` parse effect (`ResultsPage.tsx` lines 59–71), as a
function of the current view state, the results response, and the JSON
parser (`JSON.parse` composed with the `RawOCRData` shape; `parse s =
none` models a thrown parse error, caught by the `catch` which only
logs).  `rawData.blocks || []` is the `getD []`; when the effect
returns early (no results, or no `raw_data` on the first element) no
`setTextBlocks` call happens and the state is unchanged. -/
def applyRawDataEffect (parse : String → Option RawOCRData)
    (st : ResultsViewState) (results : JobResultsResponse) : ResultsViewState :=
  match results.ocr_results with
  | [] => st
  | firstResult :: _ =>
    match firstResult.raw_data with
    | none => st
    | some s =>
      match parse s with
      | some rawData => { st with textBlocks := rawData.blocks.getD [] }
      | none => st

/-- Initial overlay state on mount (`useState<TextBlock[]>([])`,
`ResultsPage.tsx` line 22; no error). -/
def initialResultsView : ResultsViewState :=
  { textBlocks := [], error := none }

/-! ## The polling effect of ResultsPage as an event-loop semantics
(`ResultsPage.tsx` lines 25–57)

Each run of the `async` callback `checkStatusAndFetchResults` is an
invocation: it first awaits `api.getJobStatus` (phase `awaitingStatus`)
and, when that resolves with `completed` or `ocr_complete`, awaits
`api.getJobResults` (phase `awaitingResults`).  The interval timer
(`setInterval(checkStatusAndFetchResults, 2000)`) starts a fresh
invocation on every tick while the timer is active, without regard to
invocations still suspended at an `await`; `clearInterval` only stops
future ticks.  The single-threaded event loop is modelled by an
environment-chosen sequence of events: timer ticks, resolutions of
outstanding status fetches (with a status or a rejection), resolutions
of outstanding results fetches, and the unmount cleanup. -/

/-- Where one invocation of `checkStatusAndFetchResults` is suspended. -/
inductive InvPhase where
  | awaitingStatus
  | awaitingResults
deriving DecidableEq, Repr

/-- One suspended invocation of the polling callback. -/
structure Invocation where
  id : Nat
  phase : InvPhase
deriving DecidableEq, Repr

/-- Outcome of an awaited `api.getJobStatus` call: a job snapshot, or a
rejection (network/protocol error, landing in the `catch`). -/
inductive StatusOutcome where
  | ok (status : JobStatus)
  | err
deriving DecidableEq, Repr

/-- Outcome of an awaited `api.getJobResults` call. -/
inductive ResultsOutcome where
  | ok (data : JobResultsResponse)
  | err
deriving DecidableEq, Repr

/-- The component state the polling effect writes
(`setResults`, `setLoading`, `setError`). -/
structure CompState where
  results : Option JobResultsResponse
  loading : Bool
  error : Option String
deriving DecidableEq, Repr

/-- A network request issued by the poller, in issue order. -/
inductive FetchEvent where
  | statusFetch (inv : Nat)
  | resultsFetch (inv : Nat)
deriving DecidableEq, Repr

/-- Poller session state: whether the interval timer is still active,
the invocations suspended at an `await`, the component state, the next
fresh invocation id, and the log of issued fetches. -/
structure PollerState where
  intervalActive : Bool
  pending : List Invocation
  comp : CompState
  nextId : Nat
  fetchLog : List FetchEvent
deriving DecidableEq, Repr

/-- An event the event loop can deliver to the poller. -/
inductive PEvent where
  | tick
  | resolveStatus (inv : Nat) (out : StatusOutcome)
  | resolveResults (inv : Nat) (out : ResultsOutcome)
  | teardown
deriving DecidableEq, Repr

/-- Error message set on `status === 'failed'`
(`ResultsPage.tsx` line 39). -/
def failedMsg : String := "Job processing failed."

/-- Error message set in the `catch` (`ResultsPage.tsx` line 45). -/
def trackingLostMsg : String := "Failed to track job status. Please refresh."

/-- Is invocation `inv` currently suspended in phase `ph`? -/
def hasPending (s : PollerState) (inv : Nat) (ph : InvPhase) : Bool :=
  s.pending.any fun i => i.id == inv && i.phase == ph

/-- One event-loop step of the polling effect.  Cases follow
`ResultsPage.tsx` lines 28–56:
* `tick`: while the interval is active, start a new invocation, whose
  first action is to issue a status fetch (line 31); a cleared timer
  never fires.
* `resolveStatus`: the invocation resumes after `await
  api.getJobStatus`.  `completed`/`ocr_complete` issues the results
  fetch and suspends again (line 34); `failed` runs `setError;
  setLoading(false); clearInterval` (lines 38–41); `queued`/`processing`
  falls through both branches and the invocation ends; a rejection runs
  the `catch` (lines 43–48).
* `resolveResults`: the invocation resumes after `await
  api.getJobResults` and runs `setResults; setLoading(false);
  clearInterval` (lines 35–37); a rejection lands in the same `catch`.
* `teardown`: the effect cleanup, `clearInterval` only (lines 54–56). -/
def stepPoller (s : PollerState) (e : PEvent) : PollerState :=
  match e with
  | .tick =>
    if s.intervalActive then
      { s with
        pending := s.pending ++ [{ id := s.nextId, phase := .awaitingStatus }]
        nextId := s.nextId + 1
        fetchLog := s.fetchLog ++ [.statusFetch s.nextId] }
    else s
  | .teardown => { s with intervalActive := false }
  | .resolveStatus inv out =>
    if hasPending s inv .awaitingStatus then
      let removed := s.pending.filter fun i => i.id != inv
      match out with
      | .ok .completed =>
        { s with
          pending := removed ++ [{ id := inv, phase := .awaitingResults }]
          fetchLog := s.fetchLog ++ [.resultsFetch inv] }
      | .ok .ocr_complete =>
        { s with
          pending := removed ++ [{ id := inv, phase := .awaitingResults }]
          fetchLog := s.fetchLog ++ [.resultsFetch inv] }
      | .ok .failed =>
        { s with
          pending := removed
          comp := { s.comp with error := some failedMsg, loading := false }
          intervalActive := false }
      | .ok .queued => { s with pending := removed }
      | .ok .processing => { s with pending := removed }
      | .err =>
        { s with
          pending := removed
          comp := { s.comp with error := some trackingLostMsg, loading := false }
          intervalActive := false }
    else s
  | .resolveResults inv out =>
    if hasPending s inv .awaitingResults then
      let removed := s.pending.filter fun i => i.id != inv
      match out with
      | .ok data =>
        { s with
          pending := removed
          comp := { s.comp with results := some data, loading := false }
          intervalActive := false }
      | .err =>
        { s with
          pending := removed
          comp := { s.comp with error := some trackingLostMsg, loading := false }
          intervalActive := false }
    else s

/-- Poller state right after the effect body runs on mount
(`ResultsPage.tsx` lines 51–52): `checkStatusAndFetchResults()` has
issued invocation 0's status fetch, and `setInterval` has armed the
timer; `loading` starts `true`, no results, no error. -/
def pollerInit : PollerState :=
  { intervalActive := true
    pending := [{ id := 0, phase := .awaitingStatus }]
    comp := { results := none, loading := true, error := none }
    nextId := 1
    fetchLog := [.statusFetch 0] }

/-- Run the poller over a schedule of event-loop events. -/
def runPoller (s : PollerState) (evs : List PEvent) : PollerState :=
  evs.foldl stepPoller s

/-- Does delivering `e` in state `s` issue a new status fetch?  Only a
tick of an active timer starts an invocation, and every invocation
issues its status fetch immediately. -/
def issuesStatusFetch (s : PollerState) (e : PEvent) : Bool :=
  match e with
  | .tick => s.intervalActive
  | _ => false

/-- Does delivering `e` in state `s` issue a status fetch while an
earlier status fetch of the same session is still unresolved? -/
def issuesWhileUnresolved (s : PollerState) (e : PEvent) : Bool :=
  issuesStatusFetch s e && s.pending.any fun i => i.phase == .awaitingStatus

/-- Does some step of the schedule `evs` from `s` issue a status fetch
while a previous one is unresolved? -/
def someOverlappingIssue (s : PollerState) : List PEvent → Bool
  | [] => false
  | e :: evs => issuesWhileUnresolved s e || someOverlappingIssue (stepPoller s e) evs

/-- Does delivering `e` in state `s` make the poller enter a terminal
state of the spec's §4.1 machine — ResultsReady (a pending status fetch
resolves with `completed` or `ocr_complete`), Failed (it resolves with
`failed`), or TrackingLost (it rejects)? -/
def terminalEntry (s : PollerState) (e : PEvent) : Bool :=
  match e with
  | .resolveStatus inv out =>
    hasPending s inv .awaitingStatus &&
      (match out with
       | .ok .completed => true
       | .ok .ocr_complete => true
       | .ok .failed => true
       | .err => true
       | _ => false)
  | _ => false

/-- Is no status fetch at all issued along `evs` from `s`? -/
def noStatusIssued (s : PollerState) : List PEvent → Bool
  | [] => true
  | e :: evs => !issuesStatusFetch s e && noStatusIssued (stepPoller s e) evs

/-- Is every status fetch along `evs` from `s` issued before the first
terminal entry? -/
def noStatusFetchAfterTerminal (s : PollerState) : List PEvent → Bool
  | [] => true
  | e :: evs =>
    if terminalEntry s e then noStatusIssued (stepPoller s e) evs
    else noStatusFetchAfterTerminal (stepPoller s e) evs

/-! ## ReviewPage: queue mutation protocol (`src/unnamed/part_001`,
`ReviewPage` component, `handleReview` at lines 767–787) -/

/-- The review view state `handleReview` reads and writes: the local
queue `jobs`, the current selection `selectedJob`, the editable
transcript `currentText`, the page cursor, and the error banner. -/
structure ReviewState where
  jobs : List Job
  selectedJob : Option Job
  currentText : String
  pageNumber : Nat
  error : Option String
deriving DecidableEq, Repr

/-- Whether the awaited `submitJobReview` call resolves or rejects. -/
inductive SubmitOutcome where
  | success
  | failure
deriving DecidableEq, Repr

/-- The operator's decision. -/
inductive ReviewAction where
  | approve
  | reject
deriving DecidableEq, Repr

/-- `handleReview` (`part_001` lines 767–787) as a function of the
state and the submit outcome.  `if (!selectedJob) return` is the outer
match; on success the queue becomes
`jobs.filter(j => j.id !== selectedJob.id)`, the selection becomes
`updatedJobs.length > 0 ? updatedJobs[0] : null`, and the page cursor
resets to 1; on failure (the `catch`) only
`setError('Failed to submit review')` runs. -/
def handleReview (st : ReviewState) (_action : ReviewAction)
    (out : SubmitOutcome) : ReviewState :=
  match st.selectedJob with
  | none => st
  | some selectedJob =>
    match out with
    | .success =>
      let updatedJobs := st.jobs.filter fun j => j.id != selectedJob.id
      { st with
        jobs := updatedJobs
        selectedJob := updatedJobs.head?
        pageNumber := 1 }
    | .failure =>
      { st with error := some "Failed to submit review" }

/-! ## Ascending-page-order helper (spec side of claim C9) -/

/-- Insert an `OCRResult` into a list sorted by ascending
`page_number`. -/
def insertByPage (r : OCRResult) : List OCRResult → List OCRResult
  | [] => [r]
  | x :: xs =>
    if r.page_number ≤ x.page_number then r :: x :: xs
    else x :: insertByPage r xs

/-- Sort a page list into ascending `page_number` order. -/
def sortByPage : List OCRResult → List OCRResult
  | [] => []
  | x :: xs => insertByPage x (sortByPage xs)

/-- Modelled from the spec (§4.2, §4.6): the pages' `full_text` values
joined by a paragraph break in ascending page-number order.  Claim side
of the refinement comparison for the concatenated transcript; the code
side is `fullTextOf` / `downloadAsTextContent`. -/
def specConcatAscending (rs : List OCRResult) : String :=
  joinSep "\n\n" ((sortByPage rs).map (fun r => r.full_text))

/-- The pages are listed in ascending page-number order. -/
def AscendingPages (rs : List OCRResult) : Prop :=
  rs.Pairwise fun a b => a.page_number ≤ b.page_number

/-! ## Concrete fixtures used by witnesses and counterexamples -/

/-- A block whose pixel rectangle on an 800×600 surface is
(400, 300, 80, 30). -/
def blkA : TextBlock :=
  { text := "A", confidence := 9/10
    bbox := { x := 500, y := 500, width := 100, height := 50 } }

/-- A block overlapping `blkA`; both contain the pixel point
(450, 320) on an 800×600 surface. -/
def blkB : TextBlock :=
  { text := "B", confidence := 1/2
    bbox := { x := 540, y := 510, width := 100, height := 50 } }

/-- A concrete page with a defined confidence. -/
def pageWithConf : OCRResult :=
  { id := 1, page_number := 1, full_text := "page one text"
    confidence := some (4/5), processing_time := some 1, raw_data := none }

/-- A concrete page with no confidence value. -/
def pageNoConf : OCRResult :=
  { id := 2, page_number := 2, full_text := "page two text"
    confidence := none, processing_time := none, raw_data := some "oops" }

/-- A concrete job snapshot. -/
def cexJob : Job :=
  { id := "abc123", filename := "scan.pdf", file_key := "k1"
    status := .completed, confidence_score := some 95
    detected_language := some "en", completed_at := none }

/-- A concrete results response. -/
def cexResp : JobResultsResponse :=
  { job := cexJob, ocr_results := [pageWithConf, pageNoConf] }

end IDP

namespace IDP

/-! ## Helper lemmas -/

/-- `List.find?` returns the first element in list order satisfying the
predicate: there is an index holding the returned element such that the
predicate fails at every earlier index. -/
theorem find?_first_in_order {α : Type} (p : α → Bool) :
    ∀ (l : List α) (a : α), l.find? p = some a →
      ∃ i : Fin l.length, l.get i = a ∧ p a = true ∧
        ∀ j : Fin l.length, (j : ℕ) < (i : ℕ) → p (l.get j) = false := by
  intro l
  induction l with
  | nil => intro a h; simp [List.find?] at h
  | cons x xs ih =>
    intro a h
    by_cases hp : p x = true
    · rw [List.find?_cons_of_pos _ hp] at h
      refine ⟨⟨0, by simp⟩, ?_, ?_, ?_⟩
      · simpa using Option.some.inj h
      · rw [← Option.some.inj h]; exact hp
      · intro j hj
        simp at hj
    · have hp' : p x = false := by
        cases hpx : p x with
        | true => exact absurd hpx hp
        | false => rfl
      rw [List.find?_cons_of_neg _ (by simp [hp'])] at h
      obtain ⟨i, hget, hpa, hfirst⟩ := ih a h
      refine ⟨⟨(i : ℕ) + 1, by simp [Nat.succ_lt_succ i.isLt]⟩, by simpa using hget, hpa, ?_⟩
      intro j hj
      match j with
      | ⟨0, _⟩ => simpa using hp'
      | ⟨k + 1, hk⟩ =>
        have hk' : k < xs.length := by simpa using hk
        have : k < (i : ℕ) := by simpa using hj
        simpa using hfirst ⟨k, hk'⟩ this

/-! ## Claim theorems -/

/-- C5: for every block list and pointer position in surface-pixel
coordinates, `handleCanvasClick` returns the first block in list order
whose pixel rectangle contains the point (containment
`bx ≤ px ≤ bx + bw`, `by ≤ py ≤ by + bh`); for two overlapping blocks
at indices 0 and 1 both containing the point, the block at index 0 is
returned; and when no block contains the point the click target and
the hover target are both `none`, so the click is a no-op. -/
theorem C5_hitTest_first_match :
    (∀ (blocks : List TextBlock) (cw ch px py : ℚ) (b : TextBlock),
        handleCanvasClick blocks cw ch px py = some b →
        ∃ i : Fin blocks.length, blocks.get i = b ∧
          containsPoint cw ch px py b = true ∧
          ∀ j : Fin blocks.length, (j : ℕ) < (i : ℕ) →
            containsPoint cw ch px py (blocks.get j) = false) ∧
    (∀ (b0 b1 : TextBlock) (rest : List TextBlock) (cw ch px py : ℚ),
        containsPoint cw ch px py b0 = true →
        containsPoint cw ch px py b1 = true →
        handleCanvasClick (b0 :: b1 :: rest) cw ch px py = some b0) ∧
    (∀ (blocks : List TextBlock) (cw ch px py : ℚ),
        (∀ b ∈ blocks, containsPoint cw ch px py b = false) →
        handleCanvasClick blocks cw ch px py = none ∧
        handleCanvasHover blocks cw ch px py = none) := by
  refine ⟨?_, ?_, ?_⟩
  · intro blocks cw ch px py b h
    exact find?_first_in_order _ blocks b h
  · intro b0 b1 rest cw ch px py h0 _h1
    unfold handleCanvasClick
    exact List.find?_cons_of_pos _ h0
  · intro blocks cw ch px py h
    constructor
    · unfold handleCanvasClick
      rw [List.find?_eq_none]
      intro b hb
      simp [h b hb]
    · unfold handleCanvasHover
      rw [List.findIdx?_eq_none_iff]
      intro b hb
      simp [h b hb]

/-- Witness for C5 at concrete inputs: `blkA` and `blkB` overlap and
both contain pixel (450, 320) on an 800×600 surface, and the click
resolves to `blkA` (index 0); at pixel (900, 900) no block contains the
point and both the click and hover targets are `none`. -/
theorem C5_hitTest_first_match_witness :
    handleCanvasClick [blkA, blkB] 800 600 450 320 = some blkA ∧
    handleCanvasClick [blkA, blkB] 800 600 900 900 = none ∧
    handleCanvasHover [blkA, blkB] 800 600 900 900 = none := by
  have hA : containsPoint 800 600 450 320 blkA = true := by
    simp only [containsPoint, blkA, Bool.and_eq_true, decide_eq_true_eq]
    norm_num
  have hB : containsPoint 800 600 450 320 blkB = true := by
    simp only [containsPoint, blkB, Bool.and_eq_true, decide_eq_true_eq]
    norm_num
  have hnone : ∀ b ∈ [blkA, blkB], containsPoint 800 600 900 900 b = false := by
    intro b hb
    simp only [List.mem_cons, List.not_mem_nil, or_false] at hb
    rcases hb with hb | hb <;> subst hb <;>
      · simp only [containsPoint, blkA, blkB, Bool.and_eq_true, Bool.and_eq_false_iff,
          decide_eq_true_eq, decide_eq_false_iff_not, not_le]
        norm_num
  have h1 := C5_hitTest_first_match.2.1 blkA blkB [] 800 600 450 320 hA hB
  have h2 := C5_hitTest_first_match.2.2 [blkA, blkB] 800 600 900 900 hnone
  exact ⟨h1, h2.1, h2.2⟩

/-- C6: for every block and every surface size, the rendered pixel
rectangle equals (x·w/1000, y·h/1000, width·w/1000, height·h/1000),
with the scale factors a function of the surface size passed to the
draw; in particular a block with bbox {x:500, y:500, width:100,
height:50} on an 800×600 surface renders at (400, 300) with size
(80, 30). -/
theorem C6_coordinate_mapping :
    (∀ (cw ch : ℚ) (b : TextBlock),
        renderRect cw ch b =
          { x := b.bbox.x * cw / 1000
            y := b.bbox.y * ch / 1000
            width := b.bbox.width * cw / 1000
            height := b.bbox.height * ch / 1000 }) ∧
    (∀ (cw ch : ℚ) (blocks : List TextBlock),
        drawnRects cw ch blocks = blocks.map (renderRect cw ch)) ∧
    renderRect 800 600
        { text := "t", confidence := 1
          bbox := { x := 500, y := 500, width := 100, height := 50 } } =
      { x := 400, y := 300, width := 80, height := 30 } := by
  refine ⟨?_, fun _ _ _ => rfl, ?_⟩
  · intro cw ch b
    simp only [renderRect, Rect.mk.injEq]
    refine ⟨by ring, by ring, by ring, by ring⟩
  · simp only [renderRect, Rect.mk.injEq]
    norm_num

/-- C7: a results response whose first page carries a structured
payload string that the parser rejects leaves the view state entirely
unchanged — starting from the initial mount state the overlay has zero
blocks and no error is surfaced — while the transcript and plain-text
export are derived from the pages' `full_text` alone, so they remain
usable. -/
theorem C7_decode_resilience (parse : String → Option RawOCRData)
    (st : ResultsViewState) (results : JobResultsResponse)
    (firstResult : OCRResult) (s : String)
    (hhead : results.ocr_results.head? = some firstResult)
    (hraw : firstResult.raw_data = some s)
    (hparse : parse s = none) :
    applyRawDataEffect parse st results = st ∧
    (applyRawDataEffect parse initialResultsView results).textBlocks = [] ∧
    (applyRawDataEffect parse initialResultsView results).error = none ∧
    downloadAsTextContent results =
      joinSep "\n\n" (results.ocr_results.map fun r => r.full_text) := by
  have hmain : ∀ st' : ResultsViewState, applyRawDataEffect parse st' results = st' := by
    intro st'
    cases hres : results.ocr_results with
    | nil =>
      unfold applyRawDataEffect
      rw [hres]
    | cons f rest =>
      have hf : f = firstResult := by
        rw [hres] at hhead
        simpa using hhead
      subst hf
      unfold applyRawDataEffect
      rw [hres]
      simp only [hraw, hparse]
  refine ⟨hmain st, ?_, ?_, rfl⟩
  · rw [hmain initialResultsView]
    rfl
  · rw [hmain initialResultsView]
    rfl

/-- Witness for C7: a parser that rejects everything, applied to the
concrete response whose first page carries the payload string
`"oops"`. -/
theorem C7_decode_resilience_witness :
    applyRawDataEffect (fun _ => none)
        { textBlocks := [blkA], error := none }
        { job := cexJob, ocr_results := [pageNoConf, pageWithConf] } =
      { textBlocks := [blkA], error := none } ∧
    (applyRawDataEffect (fun _ => none) initialResultsView
        { job := cexJob, ocr_results := [pageNoConf, pageWithConf] }).textBlocks = [] := by
  have h := C7_decode_resilience (fun _ => none)
    { textBlocks := [blkA], error := none }
    { job := cexJob, ocr_results := [pageNoConf, pageWithConf] }
    pageNoConf "oops" rfl rfl rfl
  exact ⟨h.1, h.2.1⟩

/-- C10: the overlay's block list is decoded only from the first
element of `ocr_results`: the parse effect computes the same view state
when every element after the first is dropped, for every parser, prior
state, and response — structured payloads on later pages never
contribute blocks, regardless of the page being displayed. -/
theorem C10_first_element_only (parse : String → Option RawOCRData)
    (st : ResultsViewState) (results : JobResultsResponse) :
    applyRawDataEffect parse st results =
      applyRawDataEffect parse st
        { job := results.job, ocr_results := results.ocr_results.take 1 } := by
  unfold applyRawDataEffect
  cases results.ocr_results with
  | nil => rfl
  | cons f rest => rfl

/-- Inserting a page whose number is at most every number in the list
prepends it. -/
theorem insertByPage_of_le (x : OCRResult) (xs : List OCRResult)
    (h : ∀ y ∈ xs, x.page_number ≤ y.page_number) :
    insertByPage x xs = x :: xs := by
  cases xs with
  | nil => rfl
  | cons y ys =>
    unfold insertByPage
    rw [if_pos (h y (List.mem_cons_self y ys))]

/-- Sorting a list already in ascending page-number order leaves it
unchanged. -/
theorem sortByPage_eq_self (rs : List OCRResult) (h : AscendingPages rs) :
    sortByPage rs = rs := by
  induction rs with
  | nil => rfl
  | cons x xs ih =>
    unfold sortByPage
    rw [ih (List.Pairwise.of_cons h)]
    exact insertByPage_of_le x xs fun y hy => List.rel_of_pairwise_cons h hy

/-- C9: both the on-screen transcript and the plain-text export equal
the pages' `full_text` values joined by a paragraph break; when the
pages are listed in ascending page-number order this is the
ascending-order concatenation the spec describes, and for a two-page
result it is `page1.full_text ++ "\n\n" ++ page2.full_text`. -/
theorem C9_transcript_join :
    (∀ results : JobResultsResponse,
        downloadAsTextContent results = fullTextOf results.ocr_results) ∧
    (∀ rs : List OCRResult, AscendingPages rs →
        fullTextOf rs = specConcatAscending rs) ∧
    (∀ r1 r2 : OCRResult,
        fullTextOf [r1, r2] = r1.full_text ++ "\n\n" ++ r2.full_text) := by
  refine ⟨fun _ => rfl, ?_, fun r1 r2 => rfl⟩
  intro rs h
  unfold specConcatAscending
  rw [sortByPage_eq_self rs h]
  rfl

/-- Witness for C9 at a concrete two-page result in ascending page
order. -/
theorem C9_transcript_join_witness :
    fullTextOf [pageWithConf, pageNoConf] =
      specConcatAscending [pageWithConf, pageNoConf] ∧
    fullTextOf [pageWithConf, pageNoConf] =
      pageWithConf.full_text ++ "\n\n" ++ pageNoConf.full_text := by
  have hasc : AscendingPages [pageWithConf, pageNoConf] := by
    unfold AscendingPages
    simp [pageWithConf, pageNoConf]
  exact ⟨C9_transcript_join.2.1 _ hasc,
    C9_transcript_join.2.2 pageWithConf pageNoConf⟩

/-- The `reduce` loop of the confidence average, related to a map-sum. -/
theorem foldl_add_confOrZero (rs : List OCRResult) (a : ℚ) :
    rs.foldl (fun acc r => acc + confOrZero r) a = a + (rs.map confOrZero).sum := by
  induction rs generalizing a with
  | nil => simp
  | cons r rest ih =>
    simp only [List.foldl_cons, List.map_cons, List.sum_cons, ih]
    ring

/-- When every page has a defined confidence, the defined-only
collection coincides with the `confidence || 0` values. -/
theorem filterMap_confidence_of_all_defined (rs : List OCRResult)
    (h : ∀ r ∈ rs, r.confidence.isSome) :
    rs.filterMap (fun r => r.confidence) = rs.map confOrZero := by
  induction rs with
  | nil => rfl
  | cons r rest ih =>
    obtain ⟨c, hc⟩ := Option.isSome_iff_exists.mp (h r (List.mem_cons_self r rest))
    simp [List.filterMap_cons, hc, confOrZero,
      ih fun x hx => h x (List.mem_cons_of_mem _ hx)]

/-- The claim of C3 as stated: on every result set with at least one
defined confidence, the displayed average equals the mean over exactly
the pages with a defined confidence (scaled by 100 for display), and
the exported average equals that mean. -/
def MeanConfidenceExcludesMissing : Prop :=
  ∀ rs : List OCRResult, rs.filterMap (fun r => r.confidence) ≠ [] →
    avgConfidence rs = specMeanDefinedConfidence rs * 100 ∧
    exportAverageConfidence rs = specMeanDefinedConfidence rs

/-- C3 counterexample: for a two-page result whose first page has
confidence 4/5 and whose second page has no confidence, the code
displays (4/5 + 0) / 2 · 100 = 40 while the defined-only mean of the
claim is 4/5 · 100 = 80 — the page with missing confidence is counted
as zero in the numerator and still counted in the denominator, so the
claim is false. -/
theorem C3_counterexample : ¬ MeanConfidenceExcludesMissing := by
  intro h
  have hne : ([pageWithConf, pageNoConf].filterMap fun r => r.confidence) ≠ [] := by
    simp [pageWithConf, pageNoConf]
  have h2 := (h [pageWithConf, pageNoConf] hne).1
  have hcode : avgConfidence [pageWithConf, pageNoConf] = 40 := by
    simp [avgConfidence, confOrZero, pageWithConf, pageNoConf]
    norm_num
  have hspec : specMeanDefinedConfidence [pageWithConf, pageNoConf] = 4 / 5 := by
    simp [specMeanDefinedConfidence, pageWithConf, pageNoConf]
  rw [hcode, hspec] at h2
  norm_num at h2

/-- C3 amended: the displayed and exported mean confidence sum
`confidence || 0` over all pages and divide by the total page count — a
page with no confidence value contributes zero to the numerator but is
still counted in the denominator; the defined-only mean of the claim is
obtained exactly when every page has a defined confidence. -/
theorem C3_amended :
    (∀ rs : List OCRResult, 0 < rs.length →
        avgConfidence rs = (rs.map confOrZero).sum / (rs.length : ℚ) * 100 ∧
        exportAverageConfidence rs = (rs.map confOrZero).sum / (rs.length : ℚ)) ∧
    (∀ rs : List OCRResult, (∀ r ∈ rs, r.confidence.isSome) →
        avgConfidence rs = specMeanDefinedConfidence rs * 100 ∧
        exportAverageConfidence rs = specMeanDefinedConfidence rs) := by
  have hfold : ∀ rs : List OCRResult,
      rs.foldl (fun acc r => acc + confOrZero r) 0 = (rs.map confOrZero).sum :=
    fun rs => by simpa using foldl_add_confOrZero rs 0
  constructor
  · intro rs hlen
    constructor
    · unfold avgConfidence
      rw [if_pos hlen, hfold]
    · unfold exportAverageConfidence
      rw [if_pos hlen, hfold]
  · intro rs hdef
    have hspec : specMeanDefinedConfidence rs
        = (rs.map confOrZero).sum / (rs.length : ℚ) := by
      unfold specMeanDefinedConfidence
      rw [filterMap_confidence_of_all_defined rs hdef]
      simp
    cases rs with
    | nil =>
      simp [avgConfidence, exportAverageConfidence, specMeanDefinedConfidence]
    | cons r rest =>
      have hlen : 0 < (r :: rest).length := by simp
      constructor
      · unfold avgConfidence
        rw [if_pos hlen, hfold, hspec]
      · unfold exportAverageConfidence
        rw [if_pos hlen, hfold, hspec]

/-- Witness for C3's amended claim: the all-pages average at the
concrete two-page result, and agreement with the defined-only mean on
a single page with defined confidence. -/
theorem C3_amended_witness :
    avgConfidence [pageWithConf, pageNoConf] =
      (([pageWithConf, pageNoConf].map confOrZero).sum / 2) * 100 ∧
    avgConfidence [pageWithConf] = specMeanDefinedConfidence [pageWithConf] * 100 := by
  constructor
  · have h := (C3_amended.1 [pageWithConf, pageNoConf] (by simp)).1
    simpa using h
  · exact (C3_amended.2 [pageWithConf] (by simp [pageWithConf])).1

/-- Exactly one element of a queue with pairwise-distinct ids matches
the selected id, so filtering it away shortens the queue by one. -/
theorem filter_ne_id_length (jobs : List Job) (sel : Job)
    (hmem : sel ∈ jobs) (hnodup : (jobs.map Job.id).Nodup) :
    (jobs.filter fun j => j.id != sel.id).length + 1 = jobs.length := by
  induction jobs with
  | nil => simp at hmem
  | cons x xs ih =>
    rw [List.map_cons, List.nodup_cons] at hnodup
    by_cases hx : x.id = sel.id
    · have hfilter : (xs.filter fun j => j.id != sel.id) = xs := by
        apply List.filter_eq_self.mpr
        intro j hj
        rw [bne_iff_ne, Ne, ← hx]
        intro he
        exact hnodup.1 (he ▸ List.mem_map_of_mem Job.id hj)
      have hfx : (x.id != sel.id) = false := by simp [hx]
      simp [List.filter_cons, hfx, hfilter]
    · have hsel : sel ∈ xs := by
        rcases List.mem_cons.mp hmem with he | hm
        · exact absurd (by rw [he]) hx
        · exact hm
      have hfx : (x.id != sel.id) = true := by simp [bne_iff_ne, hx]
      have := ih hsel hnodup.2
      simp only [List.filter_cons, hfx, if_true, List.length_cons]
      omega

/-- C8: on a successful submit, `handleReview` removes exactly the
currently selected job from the local queue by id match and selects the
new index-0 job, whose id differs from the removed one, or clears the
selection (the caught-up state) when the queue becomes empty; on a
failed submit the queue, the selection, the edited text, and the page
cursor are unchanged and the error banner is set. -/
theorem C8_review_queue_advance (st : ReviewState) (sel : Job)
    (action : ReviewAction)
    (hsel : st.selectedJob = some sel)
    (hmem : sel ∈ st.jobs)
    (hnodup : (st.jobs.map Job.id).Nodup) :
    ((handleReview st action .success).jobs
        = st.jobs.filter (fun j => j.id != sel.id) ∧
      (handleReview st action .success).jobs.length + 1 = st.jobs.length ∧
      (∀ j ∈ (handleReview st action .success).jobs,
        j ∈ st.jobs ∧ j.id ≠ sel.id) ∧
      (handleReview st action .success).selectedJob
        = (handleReview st action .success).jobs.head? ∧
      (∀ j, (handleReview st action .success).selectedJob = some j →
        j.id ≠ sel.id) ∧
      ((handleReview st action .success).jobs = [] →
        (handleReview st action .success).selectedJob = none)) ∧
    ((handleReview st action .failure).jobs = st.jobs ∧
      (handleReview st action .failure).selectedJob = st.selectedJob ∧
      (handleReview st action .failure).currentText = st.currentText ∧
      (handleReview st action .failure).pageNumber = st.pageNumber ∧
      (handleReview st action .failure).error = some "Failed to submit review") := by
  have hsucc : handleReview st action .success =
      { st with
        jobs := st.jobs.filter fun j => j.id != sel.id
        selectedJob := (st.jobs.filter fun j => j.id != sel.id).head?
        pageNumber := 1 } := by
    unfold handleReview
    rw [hsel]
  have hfail : handleReview st action .failure =
      { st with error := some "Failed to submit review" } := by
    unfold handleReview
    rw [hsel]
  refine ⟨⟨?_, ?_, ?_, ?_, ?_, ?_⟩, ?_⟩
  · rw [hsucc]
  · rw [hsucc]
    exact filter_ne_id_length st.jobs sel hmem hnodup
  · rw [hsucc]
    intro j hj
    have hj' := List.mem_filter.mp hj
    exact ⟨hj'.1, by simpa [bne_iff_ne] using hj'.2⟩
  · rw [hsucc]
  · rw [hsucc]
    intro j hj
    have hj2 : (st.jobs.filter fun j => j.id != sel.id).head? = some j := hj
    have hjmem : j ∈ st.jobs.filter fun j => j.id != sel.id :=
      List.mem_of_mem_head? hj2
    have hj' := List.mem_filter.mp hjmem
    simpa [bne_iff_ne] using hj'.2
  · rw [hsucc]
    intro hempty
    have h2 : (st.jobs.filter fun j => j.id != sel.id) = [] := hempty
    show (st.jobs.filter fun j => j.id != sel.id).head? = none
    rw [h2]
    rfl
  · rw [hfail]
    exact ⟨rfl, rfl, rfl, rfl, rfl⟩

/-- A concrete three-job review queue. -/
def jobA : Job :=
  { id := "a", filename := "a.pdf", file_key := "ka", status := .completed
    confidence_score := none, detected_language := none, completed_at := none }

/-- Second job of the concrete queue. -/
def jobB : Job :=
  { id := "b", filename := "b.pdf", file_key := "kb", status := .completed
    confidence_score := none, detected_language := none, completed_at := none }

/-- Third job of the concrete queue. -/
def jobC : Job :=
  { id := "c", filename := "c.pdf", file_key := "kc", status := .completed
    confidence_score := none, detected_language := none, completed_at := none }

/-- Review state with the three-job queue and the first job selected. -/
def reviewSt0 : ReviewState :=
  { jobs := [jobA, jobB, jobC], selectedJob := some jobA
    currentText := "edited text", pageNumber := 1, error := none }

/-- Witness for C8 at the concrete three-job queue of the spec's P6:
approving the selected first job removes exactly it and the new
selection is the former second job; a failed submit only sets the
error. -/
theorem C8_review_queue_advance_witness :
    (handleReview reviewSt0 .approve .success).jobs
        = reviewSt0.jobs.filter (fun j => j.id != jobA.id) ∧
    (handleReview reviewSt0 .approve .success).jobs.length + 1
        = reviewSt0.jobs.length ∧
    (handleReview reviewSt0 .approve .failure).error
        = some "Failed to submit review" := by
  have h := C8_review_queue_advance reviewSt0 jobA .approve rfl
    (by simp [reviewSt0]) (by simp [reviewSt0, jobA, jobB, jobC])
  exact ⟨h.1.1, h.1.2.1, h.2.2.2.2.2⟩

/-! ## Poller claims -/

/-- Holds when no schedule ever issues a status fetch while a previous
status fetch of the same polling session is still unresolved — the
strict sequentiality claimed by C1. -/
def StrictlySequentialPolling : Prop :=
  ∀ evs : List PEvent, someOverlappingIssue pollerInit evs = false

/-- C1 counterexample: on the schedule where the first interval tick
fires before the mount-time status fetch has resolved (fetch latency
above the 2-second interval), the tick issues a second status fetch
while the first is still unresolved — `setInterval` does not wait for
the async callback, so polling is not strictly sequential and the two
snapshots can be processed out of order. -/
theorem C1_counterexample : ¬ StrictlySequentialPolling := by
  intro h
  have h2 := h [PEvent.tick]
  have h3 : someOverlappingIssue pollerInit [PEvent.tick] = true := rfl
  rw [h3] at h2
  exact absurd h2 (by simp)

/-- C1 amended: a tick of the active interval timer issues a status
fetch unconditionally — in particular also when a previous status
fetch of the session is still unresolved — so polling is
interval-scheduled without regard to in-flight fetches, and overlap
occurs whenever a fetch outlives the interval period. -/
theorem C1_amended_tick_always_issues (s : PollerState)
    (hact : s.intervalActive = true) :
    issuesStatusFetch s PEvent.tick = true ∧
    (stepPoller s PEvent.tick).fetchLog
        = s.fetchLog ++ [FetchEvent.statusFetch s.nextId] ∧
    ((s.pending.any fun i => i.phase == InvPhase.awaitingStatus) = true →
      issuesWhileUnresolved s PEvent.tick = true) := by
  refine ⟨?_, ?_, ?_⟩
  · simpa [issuesStatusFetch] using hact
  · simp [stepPoller, hact]
  · intro hpend
    simp [issuesWhileUnresolved, issuesStatusFetch, hact, hpend]

/-- Witness for C1's amended claim at the mount state: the first tick
issues status fetch 1 while invocation 0's status fetch is pending. -/
theorem C1_amended_witness :
    issuesStatusFetch pollerInit PEvent.tick = true ∧
    issuesWhileUnresolved pollerInit PEvent.tick = true := by
  have h := C1_amended_tick_always_issues pollerInit rfl
  exact ⟨h.1, h.2.2 rfl⟩

/-- Holds when, once the interval has been cancelled, no later event of
the session changes the component state — i.e. in-flight responses are
discarded after cancellation, as claimed by C2. -/
def InFlightDiscardedAfterCancellation : Prop :=
  ∀ evs rest : List PEvent,
    (runPoller pollerInit evs).intervalActive = false →
    (runPoller pollerInit (evs ++ rest)).comp = (runPoller pollerInit evs).comp

/-- C2 counterexample: invocation 0's status fetch is in flight when
invocation 1 observes `failed` and cancels the interval; invocation 0
then resolves `completed`, issues a results fetch, and its response is
stored via `setResults` — the result of a fetch that was in flight at
cancellation time is applied to the component state, not discarded. -/
theorem C2_counterexample : ¬ InFlightDiscardedAfterCancellation := by
  intro h
  have h2 := h
    [PEvent.tick, PEvent.resolveStatus 1 (StatusOutcome.ok JobStatus.failed)]
    [PEvent.resolveStatus 0 (StatusOutcome.ok JobStatus.completed),
      PEvent.resolveResults 0 (ResultsOutcome.ok cexResp)] rfl
  have h3 : some cexResp = (none : Option JobResultsResponse) :=
    congrArg CompState.results h2
  exact Option.noConfusion h3

/-- C2 amended: cancellation clears only the interval timer, so no new
invocation starts; but a status fetch still in flight at cancellation
is not discarded — when it resolves, the continuation of
`checkStatusAndFetchResults` still runs against the cancelled session:
a rejection sets the tracking-lost error, and a `completed` status
issues the results fetch (whose response is then stored). -/
theorem C2_amended_inflight_applied (s : PollerState) (inv : Nat)
    (_hcancelled : s.intervalActive = false)
    (hpending : hasPending s inv InvPhase.awaitingStatus = true) :
    (stepPoller s (PEvent.resolveStatus inv StatusOutcome.err)).comp.error
        = some trackingLostMsg ∧
    (stepPoller s
        (PEvent.resolveStatus inv (StatusOutcome.ok JobStatus.completed))).fetchLog
        = s.fetchLog ++ [FetchEvent.resultsFetch inv] := by
  constructor
  · simp [stepPoller, hpending]
  · simp [stepPoller, hpending]

/-- Witness for C2's amended claim: in the concrete cancelled state
(invocation 1 observed `failed` while invocation 0 was in flight),
resolving invocation 0's fetch with a rejection still overwrites the
error. -/
theorem C2_amended_witness :
    (stepPoller
        (runPoller pollerInit
          [PEvent.tick, PEvent.resolveStatus 1 (StatusOutcome.ok JobStatus.failed)])
        (PEvent.resolveStatus 0 StatusOutcome.err)).comp.error
      = some trackingLostMsg := by
  have h := C2_amended_inflight_applied
    (runPoller pollerInit
      [PEvent.tick, PEvent.resolveStatus 1 (StatusOutcome.ok JobStatus.failed)])
    0 rfl rfl
  exact h.1

/-- Holds when, on every schedule, no status fetch is issued after the
poller enters ResultsReady, Failed, or TrackingLost — the claim of
C4. -/
def PollerStopsAtTerminal : Prop :=
  ∀ evs : List PEvent, noStatusFetchAfterTerminal pollerInit evs = true

/-- C4 counterexample: the mount-time fetch resolves `completed` —
entering ResultsReady and issuing the results fetch — but
`clearInterval` runs only after `await api.getJobResults` resolves; a
tick arriving before that resolution issues another status fetch after
the terminal entry, so the claim fails on a results fetch slower than
the 2-second interval. -/
theorem C4_counterexample : ¬ PollerStopsAtTerminal := by
  intro h
  have h2 := h
    [PEvent.resolveStatus 0 (StatusOutcome.ok JobStatus.completed), PEvent.tick]
  have h3 : noStatusFetchAfterTerminal pollerInit
      [PEvent.resolveStatus 0 (StatusOutcome.ok JobStatus.completed), PEvent.tick]
      = false := rfl
  rw [h3] at h2
  exact absurd h2 (by simp)

/-- A cleared interval timer is never re-armed by any event. -/
theorem intervalActive_mono (s : PollerState) (e : PEvent)
    (h : s.intervalActive = false) :
    (stepPoller s e).intervalActive = false := by
  cases e with
  | tick => simp [stepPoller, h]
  | teardown => simp [stepPoller]
  | resolveStatus inv out =>
    cases hp : hasPending s inv .awaitingStatus with
    | false => simp [stepPoller, hp, h]
    | true =>
      cases out with
      | ok status => cases status <;> simp [stepPoller, hp, h]
      | err => simp [stepPoller, hp]
  | resolveResults inv out =>
    cases hp : hasPending s inv .awaitingResults with
    | false => simp [stepPoller, hp, h]
    | true =>
      cases out with
      | ok data => simp [stepPoller, hp]
      | err => simp [stepPoller, hp]

/-- C4 amended: after the interval timer has been cleared, no schedule
issues any further status fetch; but on the success path the timer is
cleared only once the results fetch resolves, and a tick arriving in
the window after the ResultsReady entry still issues a status fetch. -/
theorem C4_amended :
    (∀ (s : PollerState) (evs : List PEvent), s.intervalActive = false →
        noStatusIssued s evs = true) ∧
    issuesStatusFetch
        (runPoller pollerInit
          [PEvent.resolveStatus 0 (StatusOutcome.ok JobStatus.completed)])
        PEvent.tick = true := by
  constructor
  · intro s evs
    induction evs generalizing s with
    | nil => intro _; rfl
    | cons e rest ih =>
      intro h
      have h1 : issuesStatusFetch s e = false := by
        cases e <;> simp [issuesStatusFetch, h]
      unfold noStatusIssued
      rw [h1]
      simp only [Bool.not_false, Bool.true_and]
      exact ih (stepPoller s e) (intervalActive_mono s e h)
  · rfl

/-- Witness for C4's amended claim: from the concrete tracking-lost
state (mount fetch rejected), no status fetch is issued over a schedule
of two ticks and a teardown. -/
theorem C4_amended_witness :
    noStatusIssued (runPoller pollerInit [PEvent.resolveStatus 0 StatusOutcome.err])
      [PEvent.tick, PEvent.tick, PEvent.teardown] = true :=
  C4_amended.1
    (runPoller pollerInit [PEvent.resolveStatus 0 StatusOutcome.err])
    [PEvent.tick, PEvent.tick, PEvent.teardown] rfl

end IDP
